import Mathlib

/-!
# Shallow embedding of the wave.v0.1 storage and API layer

This file embeds the in-memory storage engine (`server/storage.ts`,
class `MemStorage`) and the relevant Express route handlers
(`registerRoutes`) of the wave.v0.1 repository, and proves or refutes
the frozen claims about them.

Modelling decisions, each tied to a JavaScript/TypeScript semantics fact:

* A JS `Map<number, T>` is modelled as an insertion-ordered association
  list `JMap T := List (Int × T)`. ECMA-262 specifies that `Map`
  iteration (`values()`) follows insertion order, that `set` on an
  existing key updates the value in place without moving the entry, and
  that `delete` removes the single entry for the key.
* JS numbers that arise here are integers or `NaN` (from `parseInt` on a
  non-numeric string); they are modelled by `JNum` (`nan` or an `Int`).
  The stored ids, counters and timestamps are always genuine integers
  and are modelled as `Int` directly; `Date.getTime()` is the integer
  millisecond timestamp, so `publishedAt`/`createdAt` are `Int`.
* `Array.prototype.sort` with the comparator
  `(a, b) => b.publishedAt.getTime() - a.publishedAt.getTime()` is a
  stable sort (ECMA-262 requires sort stability) under a consistent
  comparator, so its result is the unique permutation that is sorted by
  timestamp descending and keeps elements with equal timestamps in their
  original relative order. `sortBlogsDesc` (a stable insertion sort) is
  proved below to be sorted, a permutation, and stable, hence it is that
  unique permutation.
* `Array.prototype.slice(start, end)` is modelled by `jsSlice` with the
  ECMA-262 index resolution: `NaN` becomes 0, a negative index counts
  from the end clamped at 0, a non-negative index is clamped at the
  length.
* TS `Partial<T>` record bodies (`req.body` of the PUT routes) are
  modelled as a "patch" structure whose every field is wrapped in
  `Option` (`none` = property absent). The object spread
  `{ ...record, ...patch }` replaces exactly the fields present in the
  patch; note the `id` field itself is NOT protected by the source.
* `throw new Error("... not found")` in the update methods is modelled
  as `Except.error` carrying the message; no mutation precedes the throw.
-/

/-- A JavaScript number as it appears in this code base: an integer, or
`NaN` produced by `parseInt` on a non-numeric string. -/
inductive JNum where
  | nan : JNum
  | int : Int → JNum
deriving Repr, DecidableEq

/-- JS addition restricted to `JNum`: `NaN` is absorbing. Used for the
`offset + limit` argument of `slice`. -/
def JNum.add : JNum → JNum → JNum
  | .int a, .int b => .int (a + b)
  | _, _ => .nan

/-- ECMA-262 `ToIntegerOrInfinity` followed by the relative-index
resolution of `Array.prototype.slice` for an array of length `len`:
`NaN` maps to 0, a negative index counts from the end (clamped below at
0), a non-negative index is clamped above at `len`. -/
def JNum.resolveIndex (len : Nat) : JNum → Nat
  | .nan => 0
  | .int n => if n < 0 then ((len : Int) + n).toNat else min n.toNat len

/-- `Array.prototype.slice(start, end)`: the elements at positions
`k ≤ i < f` where `k`/`f` are the resolved start/end indices. -/
def jsSlice (xs : List α) (s e : JNum) : List α :=
  (xs.take (JNum.resolveIndex xs.length e)).drop (JNum.resolveIndex xs.length s)

/-- A JS `Map<number, T>`: an insertion-ordered association list. -/
abbrev JMap (α : Type) : Type := List (Int × α)

/-- `Map.prototype.get`: the value stored at key `k`, if any. -/
def jget (m : JMap α) (k : Int) : Option α :=
  match m with
  | [] => none
  | (k', v) :: rest => if k' = k then some v else jget rest k

/-- `Map.prototype.set`: update in place if the key exists (keeping its
position in insertion order, per ECMA-262), else append a new entry. -/
def jset (m : JMap α) (k : Int) (v : α) : JMap α :=
  match m with
  | [] => [(k, v)]
  | (k', v') :: rest => if k' = k then (k', v) :: rest else (k', v') :: jset rest k v

/-- `Map.prototype.delete`: remove the entry for `k`; the returned
`Bool` says whether an entry existed. -/
def jdelete (m : JMap α) (k : Int) : Bool × JMap α :=
  match m with
  | [] => (false, [])
  | (k', v') :: rest =>
    if k' = k then (true, rest)
    else
      let r := jdelete rest k
      (r.1, (k', v') :: r.2)

/-- `Array.from(map.values())`: the values in insertion order. -/
def jvalues (m : JMap α) : List α := m.map Prod.snd

/-- `Map.prototype.size` (under the Map invariant that keys are unique,
which `jset`/`jdelete` maintain, the entry count is the size). -/
def jsize (m : JMap α) : Nat := m.length

/-- The keys of the map, in insertion order. -/
def jkeys (m : JMap α) : List Int := m.map Prod.fst

/-- `schema.ts` table `users` (`type User`). -/
structure User where
  id : Int
  uid : String
  username : String
  email : String
  displayName : String
  bio : Option String
  photoURL : Option String
  location : Option String
  website : Option String
deriving Repr, DecidableEq

/-- `type InsertUser`: `User` minus `id`. -/
structure InsertUser where
  uid : String
  username : String
  email : String
  displayName : String
  bio : Option String
  photoURL : Option String
  location : Option String
  website : Option String
deriving Repr, DecidableEq

/-- TS `Partial<User>` as sent in a PUT body: every field, `id`
included, optionally present. -/
structure UserPatch where
  id : Option Int := none
  uid : Option String := none
  username : Option String := none
  email : Option String := none
  displayName : Option (String) := none
  bio : Option (Option String) := none
  photoURL : Option (Option String) := none
  location : Option (Option String) := none
  website : Option (Option String) := none
deriving Repr, DecidableEq

/-- The object spread `{ ...user, ...userData }`: a field present in the
patch replaces the old value; an absent field is untouched. -/
def mergeUser (u : User) (p : UserPatch) : User :=
  { id := p.id.getD u.id
    uid := p.uid.getD u.uid
    username := p.username.getD u.username
    email := p.email.getD u.email
    displayName := p.displayName.getD u.displayName
    bio := p.bio.getD u.bio
    photoURL := p.photoURL.getD u.photoURL
    location := p.location.getD u.location
    website := p.website.getD u.website }

/-- `schema.ts` table `blogs` (`type Blog`); `publishedAt` is the
`getTime()` integer of the stored `Date`. -/
structure Blog where
  id : Int
  userId : Int
  title : String
  content : String
  coverImage : Option String
  category : String
  tags : Option (List String)
  publishedAt : Int
deriving Repr, DecidableEq

/-- `type InsertBlog`: `Blog` minus `id`. -/
structure InsertBlog where
  userId : Int
  title : String
  content : String
  coverImage : Option String
  category : String
  tags : Option (List String)
  publishedAt : Int
deriving Repr, DecidableEq

/-- TS `Partial<Blog>` as sent in a PUT body. -/
structure BlogPatch where
  id : Option Int := none
  userId : Option Int := none
  title : Option String := none
  content : Option String := none
  coverImage : Option (Option String) := none
  category : Option String := none
  tags : Option (Option (List String)) := none
  publishedAt : Option Int := none
deriving Repr, DecidableEq

/-- The object spread `{ ...blog, ...blogData }`. -/
def mergeBlog (b : Blog) (p : BlogPatch) : Blog :=
  { id := p.id.getD b.id
    userId := p.userId.getD b.userId
    title := p.title.getD b.title
    content := p.content.getD b.content
    coverImage := p.coverImage.getD b.coverImage
    category := p.category.getD b.category
    tags := p.tags.getD b.tags
    publishedAt := p.publishedAt.getD b.publishedAt }

/-- `schema.ts` table `likes` (`type Like`). -/
structure Like where
  id : Int
  userId : Int
  blogId : Int
deriving Repr, DecidableEq

/-- `type InsertLike`: `Like` minus `id`. -/
structure InsertLike where
  userId : Int
  blogId : Int
deriving Repr, DecidableEq

/-- `schema.ts` table `followers` (`type Follower`). -/
structure Follower where
  id : Int
  followerId : Int
  followingId : Int
deriving Repr, DecidableEq

/-- `type InsertFollower`: `Follower` minus `id`. -/
structure InsertFollower where
  followerId : Int
  followingId : Int
deriving Repr, DecidableEq

/-- `schema.ts` table `comments` (`type Comment`); `createdAt` is the
`getTime()` integer of the stored `Date`. -/
structure Comment where
  id : Int
  userId : Int
  blogId : Int
  content : String
  createdAt : Int
  parentId : Option Int
deriving Repr, DecidableEq

/-- `type InsertComment`: `Comment` minus `id`. -/
structure InsertComment where
  userId : Int
  blogId : Int
  content : String
  createdAt : Int
  parentId : Option Int
deriving Repr, DecidableEq

/-- TS `Partial<Comment>` as sent in a PUT body. -/
structure CommentPatch where
  id : Option Int := none
  userId : Option Int := none
  blogId : Option Int := none
  content : Option String := none
  createdAt : Option Int := none
  parentId : Option (Option Int) := none
deriving Repr, DecidableEq

/-- The object spread `{ ...comment, ...commentData }`. -/
def mergeComment (c : Comment) (p : CommentPatch) : Comment :=
  { id := p.id.getD c.id
    userId := p.userId.getD c.userId
    blogId := p.blogId.getD c.blogId
    content := p.content.getD c.content
    createdAt := p.createdAt.getD c.createdAt
    parentId := p.parentId.getD c.parentId }

/-- The `MemStorage` state: the five `Map`s and the five id counters. -/
structure MemStorage where
  users : JMap User
  blogs : JMap Blog
  likes : JMap Like
  followers : JMap Follower
  comments : JMap Comment
  userId : Int
  blogId : Int
  likeId : Int
  followerId : Int
  commentId : Int
deriving DecidableEq

/-- The `MemStorage` constructor: empty maps, every counter at 1. -/
def MemStorage.init : MemStorage :=
  { users := [], blogs := [], likes := [], followers := [], comments := []
    userId := 1, blogId := 1, likeId := 1, followerId := 1, commentId := 1 }

/-- `MemStorage.getUser`. -/
def getUser (st : MemStorage) (id : Int) : Option User :=
  jget st.users id

/-- `MemStorage.getUserByUid`: first user (insertion order) with this uid. -/
def getUserByUid (st : MemStorage) (uid : String) : Option User :=
  (jvalues st.users).find? (fun u => u.uid == uid)

/-- `MemStorage.getUserByUsername`: first user with this username. -/
def getUserByUsername (st : MemStorage) (username : String) : Option User :=
  (jvalues st.users).find? (fun u => u.username == username)

/-- `MemStorage.getUserByEmail` does not exist in the source; this is the
secondary-key lookup on email in the same style as `getUserByUsername`,
used only to state facts about duplicate emails. -/
def getUserByEmail (st : MemStorage) (email : String) : Option User :=
  (jvalues st.users).find? (fun u => u.email == email)

/-- `MemStorage.createUser`: take the current counter as id, increment
the counter, build the record from the insert data plus the id, store it. -/
def createUser (st : MemStorage) (u : InsertUser) : User × MemStorage :=
  let id := st.userId
  let newUser : User :=
    { id := id, uid := u.uid, username := u.username, email := u.email
      displayName := u.displayName, bio := u.bio, photoURL := u.photoURL
      location := u.location, website := u.website }
  (newUser, { st with users := jset st.users id newUser, userId := st.userId + 1 })

/-- `MemStorage.updateUser`: throw if the id is absent, else store and
return the spread-merged record. -/
def updateUser (st : MemStorage) (id : Int) (p : UserPatch) :
    Except String (User × MemStorage) :=
  match jget st.users id with
  | none => .error "User not found"
  | some u =>
    let updatedUser := mergeUser u p
    .ok (updatedUser, { st with users := jset st.users id updatedUser })

/-- `MemStorage.getBlog`. -/
def getBlog (st : MemStorage) (id : Int) : Option Blog :=
  jget st.blogs id

/-- Stable insertion of a blog into a list sorted by `publishedAt`
descending: the new element goes before the first element whose
timestamp is at most its own. -/
def insertBlogDesc (x : Blog) : List Blog → List Blog
  | [] => [x]
  | y :: ys =>
    if y.publishedAt ≤ x.publishedAt then x :: y :: ys
    else y :: insertBlogDesc x ys

/-- The result of `array.sort((a, b) => b.publishedAt.getTime() -
a.publishedAt.getTime())`: ECMA-262 requires a stable sort, and under
this consistent comparator the stable result is unique, so a stable
insertion sort computes it. -/
def sortBlogsDesc (xs : List Blog) : List Blog :=
  xs.foldr insertBlogDesc []

/-- `MemStorage.getBlogs(limit = 10, offset = 0)`: sort all blogs by
timestamp descending, then `slice(offset, offset + limit)`. -/
def getBlogs (st : MemStorage) (limit : JNum := .int 10) (offset : JNum := .int 0) :
    List Blog :=
  jsSlice (sortBlogsDesc (jvalues st.blogs)) offset (offset.add limit)

/-- `MemStorage.getBlogsByUser`. -/
def getBlogsByUser (st : MemStorage) (userId : Int) : List Blog :=
  sortBlogsDesc ((jvalues st.blogs).filter (fun b => b.userId == userId))

/-- `MemStorage.getBlogsByCategory`. -/
def getBlogsByCategory (st : MemStorage) (category : String) : List Blog :=
  sortBlogsDesc ((jvalues st.blogs).filter (fun b => b.category == category))

/-- `MemStorage.createBlog`. -/
def createBlog (st : MemStorage) (b : InsertBlog) : Blog × MemStorage :=
  let id := st.blogId
  let newBlog : Blog :=
    { id := id, userId := b.userId, title := b.title, content := b.content
      coverImage := b.coverImage, category := b.category, tags := b.tags
      publishedAt := b.publishedAt }
  (newBlog, { st with blogs := jset st.blogs id newBlog, blogId := st.blogId + 1 })

/-- `MemStorage.updateBlog`. -/
def updateBlog (st : MemStorage) (id : Int) (p : BlogPatch) :
    Except String (Blog × MemStorage) :=
  match jget st.blogs id with
  | none => .error "Blog not found"
  | some b =>
    let updatedBlog := mergeBlog b p
    .ok (updatedBlog, { st with blogs := jset st.blogs id updatedBlog })

/-- `MemStorage.deleteBlog`: `this.blogs.delete(id)`. -/
def deleteBlog (st : MemStorage) (id : Int) : Bool × MemStorage :=
  let r := jdelete st.blogs id
  (r.1, { st with blogs := r.2 })

/-- `MemStorage.getLike`: first like (insertion order) with this
(userId, blogId) pair. -/
def getLike (st : MemStorage) (userId blogId : Int) : Option Like :=
  (jvalues st.likes).find? (fun l => l.userId == userId && l.blogId == blogId)

/-- `MemStorage.getLikesByBlog`. -/
def getLikesByBlog (st : MemStorage) (blogId : Int) : List Like :=
  (jvalues st.likes).filter (fun l => l.blogId == blogId)

/-- `MemStorage.getLikesByUser`. -/
def getLikesByUser (st : MemStorage) (userId : Int) : List Like :=
  (jvalues st.likes).filter (fun l => l.userId == userId)

/-- `MemStorage.createLike`. -/
def createLike (st : MemStorage) (l : InsertLike) : Like × MemStorage :=
  let id := st.likeId
  let newLike : Like := { id := id, userId := l.userId, blogId := l.blogId }
  (newLike, { st with likes := jset st.likes id newLike, likeId := st.likeId + 1 })

/-- `MemStorage.deleteLike`. -/
def deleteLike (st : MemStorage) (id : Int) : Bool × MemStorage :=
  let r := jdelete st.likes id
  (r.1, { st with likes := r.2 })

/-- `MemStorage.getFollower`: first follower record with this
(followerId, followingId) pair. -/
def getFollower (st : MemStorage) (followerId followingId : Int) : Option Follower :=
  (jvalues st.followers).find?
    (fun f => f.followerId == followerId && f.followingId == followingId)

/-- `MemStorage.createFollower`. -/
def createFollower (st : MemStorage) (f : InsertFollower) : Follower × MemStorage :=
  let id := st.followerId
  let newFollower : Follower :=
    { id := id, followerId := f.followerId, followingId := f.followingId }
  (newFollower,
    { st with followers := jset st.followers id newFollower, followerId := st.followerId + 1 })

/-- `MemStorage.deleteFollower`. -/
def deleteFollower (st : MemStorage) (id : Int) : Bool × MemStorage :=
  let r := jdelete st.followers id
  (r.1, { st with followers := r.2 })

/-- `MemStorage.getComment`. -/
def getComment (st : MemStorage) (id : Int) : Option Comment :=
  jget st.comments id

/-- `MemStorage.createComment`. -/
def createComment (st : MemStorage) (c : InsertComment) : Comment × MemStorage :=
  let id := st.commentId
  let newComment : Comment :=
    { id := id, userId := c.userId, blogId := c.blogId, content := c.content
      createdAt := c.createdAt, parentId := c.parentId }
  (newComment,
    { st with comments := jset st.comments id newComment, commentId := st.commentId + 1 })

/-- `MemStorage.updateComment`. -/
def updateComment (st : MemStorage) (id : Int) (p : CommentPatch) :
    Except String (Comment × MemStorage) :=
  match jget st.comments id with
  | none => .error "Comment not found"
  | some c =>
    let updatedComment := mergeComment c p
    .ok (updatedComment, { st with comments := jset st.comments id updatedComment })

/-- `MemStorage.deleteComment`. -/
def deleteComment (st : MemStorage) (id : Int) : Bool × MemStorage :=
  let r := jdelete st.comments id
  (r.1, { st with comments := r.2 })

/-- A route handler response: the HTTP status plus the JSON body when
one of type `α` is sent (`none` for the error-message bodies). -/
structure ApiResp (α : Type) where
  status : Nat
  body : Option α
deriving Repr, DecidableEq

/-- The `POST /api/users` handler after Zod validation has produced
`userData : InsertUser`: look up the username; on a hit answer 409 and
do not touch the store; otherwise create and answer 201. This is the
only pre-insert uniqueness check the handler performs — neither the
email nor the uid is looked up. -/
def postUsers (st : MemStorage) (userData : InsertUser) : ApiResp User × MemStorage :=
  match getUserByUsername st userData.username with
  | some _ => (⟨409, none⟩, st)
  | none =>
    let r := createUser st userData
    (⟨201, some r.1⟩, r.2)

/-- The `POST /api/likes` handler after Zod validation: compound
existence check on (userId, blogId); 409 on a hit, else create, 201. -/
def postLikes (st : MemStorage) (likeData : InsertLike) : ApiResp Like × MemStorage :=
  match getLike st likeData.userId likeData.blogId with
  | some _ => (⟨409, none⟩, st)
  | none =>
    let r := createLike st likeData
    (⟨201, some r.1⟩, r.2)

/-- The `POST /api/followers` handler after Zod validation: compound
existence check on (followerId, followingId); 409 on a hit, else
create, 201. -/
def postFollowers (st : MemStorage) (followerData : InsertFollower) :
    ApiResp Follower × MemStorage :=
  match getFollower st followerData.followerId followerData.followingId with
  | some _ => (⟨409, none⟩, st)
  | none =>
    let r := createFollower st followerData
    (⟨201, some r.1⟩, r.2)

/-- The `GET /api/blogs` handler. A query parameter is modelled at the
`parseInt` level: `none` is an absent (or empty, hence falsy) parameter,
`some v` is a present parameter whose `parseInt` result is `v` — an
integer, or `JNum.nan` when the string is non-numeric. The handler
performs no validation whatsoever: whatever `parseInt` produced is
passed straight to `getBlogs`, and the absent-parameter defaults are 10
and 0. -/
def getBlogsHandler (st : MemStorage) (limitParam offsetParam : Option JNum) :
    ApiResp (List Blog) :=
  let limit := limitParam.getD (.int 10)
  let offset := offsetParam.getD (.int 0)
  ⟨200, some (getBlogs st limit offset)⟩

/-- An operation on the blog store, as reachable through the API:
create, delete, or update (the update may fail, leaving the state
unchanged). Used to state the identity-allocation invariant over
arbitrary operation sequences. -/
inductive BlogOp where
  | create : InsertBlog → BlogOp
  | del : Int → BlogOp
  | update : Int → BlogPatch → BlogOp
deriving Repr

/-- Apply one blog operation to the state (an update that throws leaves
the state as it was, since the throw precedes any mutation). -/
def applyBlogOp (st : MemStorage) : BlogOp → MemStorage
  | .create b => (createBlog st b).2
  | .del i => (deleteBlog st i).2
  | .update i p =>
    match updateBlog st i p with
    | .ok r => r.2
    | .error _ => st

/-- The ids handed out by the `create` operations of a sequence, in
order of execution. -/
def assignedIds (st : MemStorage) : List BlogOp → List Int
  | [] => []
  | .create b :: rest =>
    let r := createBlog st b
    r.1.id :: assignedIds r.2 rest
  | op :: rest => assignedIds (applyBlogOp st op) rest

/-- The number of `create` operations in a sequence. -/
def numCreates : List BlogOp → Nat
  | [] => 0
  | .create _ :: rest => numCreates rest + 1
  | _ :: rest => numCreates rest

/-- An operation on the user store, as reachable through the API: the
source offers create and (possibly failing) update for users, no
delete. -/
inductive UserOp where
  | create : InsertUser → UserOp
  | update : Int → UserPatch → UserOp
deriving Repr

/-- Apply one user operation to the state (an update that throws leaves
the state as it was, since the throw precedes any mutation). -/
def applyUserOp (st : MemStorage) : UserOp → MemStorage
  | .create u => (createUser st u).2
  | .update i p =>
    match updateUser st i p with
    | .ok r => r.2
    | .error _ => st

/-- The ids handed out by the `create` operations of a user-op
sequence, in order of execution. -/
def assignedUserIds (st : MemStorage) : List UserOp → List Int
  | [] => []
  | .create u :: rest =>
    let r := createUser st u
    r.1.id :: assignedUserIds r.2 rest
  | op :: rest => assignedUserIds (applyUserOp st op) rest

/-- The number of `create` operations in a user-op sequence. -/
def numUserCreates : List UserOp → Nat
  | [] => 0
  | .create _ :: rest => numUserCreates rest + 1
  | _ :: rest => numUserCreates rest

/-- An operation on the like store: the source offers create and
delete for likes. -/
inductive LikeOp where
  | create : InsertLike → LikeOp
  | del : Int → LikeOp
deriving Repr

/-- Apply one like operation to the state. -/
def applyLikeOp (st : MemStorage) : LikeOp → MemStorage
  | .create l => (createLike st l).2
  | .del i => (deleteLike st i).2

/-- The ids handed out by the `create` operations of a like-op
sequence, in order of execution. -/
def assignedLikeIds (st : MemStorage) : List LikeOp → List Int
  | [] => []
  | .create l :: rest =>
    let r := createLike st l
    r.1.id :: assignedLikeIds r.2 rest
  | op :: rest => assignedLikeIds (applyLikeOp st op) rest

/-- The number of `create` operations in a like-op sequence. -/
def numLikeCreates : List LikeOp → Nat
  | [] => 0
  | .create _ :: rest => numLikeCreates rest + 1
  | _ :: rest => numLikeCreates rest

/-- An operation on the follower store: the source offers create and
delete for follows. -/
inductive FollowerOp where
  | create : InsertFollower → FollowerOp
  | del : Int → FollowerOp
deriving Repr

/-- Apply one follower operation to the state. -/
def applyFollowerOp (st : MemStorage) : FollowerOp → MemStorage
  | .create f => (createFollower st f).2
  | .del i => (deleteFollower st i).2

/-- The ids handed out by the `create` operations of a follower-op
sequence, in order of execution. -/
def assignedFollowerIds (st : MemStorage) : List FollowerOp → List Int
  | [] => []
  | .create f :: rest =>
    let r := createFollower st f
    r.1.id :: assignedFollowerIds r.2 rest
  | op :: rest => assignedFollowerIds (applyFollowerOp st op) rest

/-- The number of `create` operations in a follower-op sequence. -/
def numFollowerCreates : List FollowerOp → Nat
  | [] => 0
  | .create _ :: rest => numFollowerCreates rest + 1
  | _ :: rest => numFollowerCreates rest

/-- An operation on the comment store: the source offers create,
(possibly failing) update and delete for comments. -/
inductive CommentOp where
  | create : InsertComment → CommentOp
  | del : Int → CommentOp
  | update : Int → CommentPatch → CommentOp
deriving Repr

/-- Apply one comment operation to the state (an update that throws
leaves the state as it was, since the throw precedes any mutation). -/
def applyCommentOp (st : MemStorage) : CommentOp → MemStorage
  | .create c => (createComment st c).2
  | .del i => (deleteComment st i).2
  | .update i p =>
    match updateComment st i p with
    | .ok r => r.2
    | .error _ => st

/-- The ids handed out by the `create` operations of a comment-op
sequence, in order of execution. -/
def assignedCommentIds (st : MemStorage) : List CommentOp → List Int
  | [] => []
  | .create c :: rest =>
    let r := createComment st c
    r.1.id :: assignedCommentIds r.2 rest
  | op :: rest => assignedCommentIds (applyCommentOp st op) rest

/-- The number of `create` operations in a comment-op sequence. -/
def numCommentCreates : List CommentOp → Nat
  | [] => 0
  | .create _ :: rest => numCommentCreates rest + 1
  | _ :: rest => numCommentCreates rest

/-- The ordering the specification describes for the feed: publication
timestamp descending with ties broken by identity descending. Stated as
a stable insertion sort for that (total, antisymmetric-up-to-key) order;
since the order has no ties between distinct keys, stability is
irrelevant and this is the unique sorted permutation. This definition
follows the spec's words, for comparison against `sortBlogsDesc`, which
follows the source. -/
def insertBlogSpecOrder (x : Blog) : List Blog → List Blog
  | [] => [x]
  | y :: ys =>
    if y.publishedAt < x.publishedAt ∨ (y.publishedAt = x.publishedAt ∧ y.id ≤ x.id) then
      x :: y :: ys
    else y :: insertBlogSpecOrder x ys

/-- Sort per the spec's description: timestamp descending, ties by
identity descending. -/
def sortBlogsSpecOrder (xs : List Blog) : List Blog :=
  xs.foldr insertBlogSpecOrder []

theorem jget_jset_self (m : JMap α) (k : Int) (v : α) :
    jget (jset m k v) k = some v := by
  induction m with
  | nil => simp [jget, jset]
  | cons hd tl ih =>
    obtain ⟨k0, v0⟩ := hd
    by_cases h0 : k0 = k
    · simp [jget, jset, h0]
    · simp [jget, jset, h0, ih]

theorem jget_jset_ne (m : JMap α) (k k' : Int) (v : α) (h : k' ≠ k) :
    jget (jset m k v) k' = jget m k' := by
  induction m with
  | nil => simp [jget, jset, Ne.symm h]
  | cons hd tl ih =>
    obtain ⟨k0, v0⟩ := hd
    by_cases h0 : k0 = k
    · subst h0
      simp [jget, jset, Ne.symm h]
    · simp only [jset, if_neg h0]
      by_cases h1 : k0 = k'
      · simp [jget, h1]
      · simp [jget, h1, ih]

theorem jset_eq_append (m : JMap α) (k : Int) (v : α) (h : jget m k = none) :
    jset m k v = m ++ [(k, v)] := by
  induction m with
  | nil => simp [jset]
  | cons hd tl ih =>
    obtain ⟨k0, v0⟩ := hd
    by_cases h0 : k0 = k
    · simp [jget, h0] at h
    · simp [jget, h0] at h
      simp [jset, h0, ih h]

theorem jdelete_fst (m : JMap α) (k : Int) :
    (jdelete m k).1 = (jget m k).isSome := by
  induction m with
  | nil => simp [jdelete, jget]
  | cons hd tl ih =>
    obtain ⟨k0, v0⟩ := hd
    by_cases h0 : k0 = k
    · simp [jdelete, jget, h0]
    · simp [jdelete, jget, h0, ih]

theorem jget_eq_none_of_not_mem (m : JMap α) (k : Int) (h : k ∉ jkeys m) :
    jget m k = none := by
  induction m with
  | nil => rfl
  | cons hd tl ih =>
    obtain ⟨k0, v0⟩ := hd
    simp [jkeys] at h
    simp [jget, Ne.symm h.1, ih (by simpa [jkeys] using h.2)]

theorem jdelete_snd_sublist (m : JMap α) (k : Int) :
    (jdelete m k).2.Sublist m := by
  induction m with
  | nil => simp [jdelete]
  | cons hd tl ih =>
    obtain ⟨k0, v0⟩ := hd
    by_cases h0 : k0 = k
    · simp only [jdelete, if_pos h0]
      exact List.sublist_cons_self _ _
    · simp only [jdelete, if_neg h0]
      exact List.Sublist.cons₂ _ ih

theorem jkeys_jdelete_not_mem (m : JMap α) (k : Int) (h : (jkeys m).Nodup) :
    k ∉ jkeys (jdelete m k).2 := by
  induction m with
  | nil => simp [jdelete, jkeys]
  | cons hd tl ih =>
    obtain ⟨k0, v0⟩ := hd
    rw [show jkeys ((k0, v0) :: tl) = k0 :: jkeys tl from rfl] at h
    rw [List.nodup_cons] at h
    by_cases h0 : k0 = k
    · subst h0
      simpa only [jdelete, if_pos rfl] using h.1
    · simp only [jdelete, if_neg h0]
      rw [show jkeys ((k0, v0) :: (jdelete tl k).2) = k0 :: jkeys (jdelete tl k).2 from rfl]
      simp only [List.mem_cons, not_or]
      exact ⟨Ne.symm h0, ih h.2⟩

theorem jget_jdelete_self (m : JMap α) (k : Int) (h : (jkeys m).Nodup) :
    jget (jdelete m k).2 k = none :=
  jget_eq_none_of_not_mem _ _ (jkeys_jdelete_not_mem m k h)

theorem jget_jdelete_ne (m : JMap α) (k k' : Int) (h : k' ≠ k) :
    jget (jdelete m k).2 k' = jget m k' := by
  induction m with
  | nil => simp [jdelete, jget]
  | cons hd tl ih =>
    obtain ⟨k0, v0⟩ := hd
    by_cases h0 : k0 = k
    · subst h0
      simp [jdelete, jget, Ne.symm h]
    · simp only [jdelete, if_neg h0]
      by_cases h1 : k0 = k'
      · simp [jget, h1]
      · simp [jget, h1, ih]

theorem jkeys_jdelete_nodup (m : JMap α) (k : Int) (h : (jkeys m).Nodup) :
    (jkeys (jdelete m k).2).Nodup :=
  h.sublist (List.Sublist.map Prod.fst (jdelete_snd_sublist m k))

theorem jkeys_jset_of_none (m : JMap α) (k : Int) (v : α) (h : jget m k = none) :
    jkeys (jset m k v) = jkeys m ++ [k] := by
  rw [jset_eq_append m k v h]
  simp [jkeys]

theorem jget_isSome_of_mem_keys (m : JMap α) (k : Int) (h : k ∈ jkeys m) :
    (jget m k).isSome := by
  induction m with
  | nil => simp [jkeys] at h
  | cons hd tl ih =>
    obtain ⟨k0, v0⟩ := hd
    by_cases h0 : k0 = k
    · simp [jget, h0]
    · simp [jkeys, Ne.symm h0] at h
      simp [jget, h0]
      exact ih (by simpa [jkeys] using h)

theorem insertBlogDesc_perm (x : Blog) (l : List Blog) :
    (insertBlogDesc x l).Perm (x :: l) := by
  induction l with
  | nil => simp [insertBlogDesc]
  | cons y ys ih =>
    by_cases h : y.publishedAt ≤ x.publishedAt
    · simp [insertBlogDesc, h]
    · simp only [insertBlogDesc, if_neg h]
      exact (List.Perm.cons y ih).trans (List.Perm.swap x y ys)

theorem sortBlogsDesc_perm (xs : List Blog) :
    (sortBlogsDesc xs).Perm xs := by
  induction xs with
  | nil => simp [sortBlogsDesc]
  | cons x l ih =>
    exact (insertBlogDesc_perm x (sortBlogsDesc l)).trans (List.Perm.cons x ih)

theorem insertBlogDesc_sorted (x : Blog) (l : List Blog)
    (h : l.Pairwise (fun a b => b.publishedAt ≤ a.publishedAt)) :
    (insertBlogDesc x l).Pairwise (fun a b => b.publishedAt ≤ a.publishedAt) := by
  induction l with
  | nil => simp [insertBlogDesc]
  | cons y ys ih =>
    rw [List.pairwise_cons] at h
    by_cases hle : y.publishedAt ≤ x.publishedAt
    · simp only [insertBlogDesc, if_pos hle]
      rw [List.pairwise_cons]
      refine ⟨?_, List.pairwise_cons.mpr h⟩
      intro b hb
      rcases List.mem_cons.mp hb with hb | hb
      · exact hb ▸ hle
      · exact le_trans (h.1 b hb) hle
    · simp only [insertBlogDesc, if_neg hle]
      rw [List.pairwise_cons]
      refine ⟨?_, ih h.2⟩
      intro b hb
      have := (insertBlogDesc_perm x ys).mem_iff.mp hb
      rcases List.mem_cons.mp this with hb' | hb'
      · subst hb'
        omega
      · exact h.1 b hb'

theorem sortBlogsDesc_sorted (xs : List Blog) :
    (sortBlogsDesc xs).Pairwise (fun a b => b.publishedAt ≤ a.publishedAt) := by
  induction xs with
  | nil => simp [sortBlogsDesc]
  | cons x l ih => exact insertBlogDesc_sorted x (sortBlogsDesc l) ih

theorem insertBlogDesc_filter_stable (x : Blog) (l : List Blog) (t : Int) :
    (insertBlogDesc x l).filter (fun b => b.publishedAt == t) =
      (x :: l).filter (fun b => b.publishedAt == t) := by
  induction l with
  | nil => simp [insertBlogDesc]
  | cons y ys ih =>
    by_cases hle : y.publishedAt ≤ x.publishedAt
    · simp [insertBlogDesc, hle]
    · have hxy : x.publishedAt < y.publishedAt := by omega
      by_cases hx : x.publishedAt = t <;> by_cases hy : y.publishedAt = t
      · exfalso; omega
      · simp only [insertBlogDesc, if_neg hle]
        simp [List.filter_cons, ih, hx, hy]
      · simp only [insertBlogDesc, if_neg hle]
        simp [List.filter_cons, ih, hx, hy]
      · simp only [insertBlogDesc, if_neg hle]
        simp [List.filter_cons, ih, hx, hy]

theorem sortBlogsDesc_filter_stable (xs : List Blog) (t : Int) :
    (sortBlogsDesc xs).filter (fun b => b.publishedAt == t) =
      xs.filter (fun b => b.publishedAt == t) := by
  induction xs with
  | nil => simp [sortBlogsDesc]
  | cons x l ih =>
    rw [show sortBlogsDesc (x :: l) = insertBlogDesc x (sortBlogsDesc l) from rfl,
      insertBlogDesc_filter_stable]
    simp [List.filter_cons, ih]

theorem take_drop_window (xs : List α) (o l : Nat) :
    (xs.take (o + l)).drop o = (xs.drop o).take l := by
  induction xs generalizing o with
  | nil => simp
  | cons x xs ih =>
    cases o with
    | zero => simp
    | succ o =>
      have : o + 1 + l = (o + l) + 1 := by omega
      rw [this]
      simpa using ih o

theorem take_min_length (xs : List α) (n : Nat) :
    xs.take (min n xs.length) = xs.take n := by
  rcases le_total n xs.length with h | h
  · rw [min_eq_left h]
  · rw [min_eq_right h, List.take_length, List.take_of_length_le h]

theorem jsSlice_nonneg (xs : List α) (o l : Nat) :
    jsSlice xs (.int o) ((JNum.int o).add (.int l)) = (xs.drop o).take l := by
  have hadd : (JNum.int o).add (.int l) = .int ((o : Int) + (l : Int)) := rfl
  rw [hadd]
  have hno : ¬((o : Int) < 0) := by omega
  have hnol : ¬((o : Int) + (l : Int) < 0) := by omega
  simp only [jsSlice, JNum.resolveIndex, if_neg hno, if_neg hnol, inf_eq_min]
  have h1 : ((o : Int) + (l : Int)).toNat = o + l := by omega
  have h2 : ((o : Int)).toNat = o := by omega
  rw [h1, h2, take_min_length]
  rcases lt_or_le o xs.length with h | h
  · rw [min_eq_left (le_of_lt h), take_drop_window]
  · rw [min_eq_right h]
    have hlen : (xs.take (o + l)).length ≤ xs.length := by
      simp
    rw [List.drop_of_length_le hlen, List.drop_of_length_le h, List.take_nil]

theorem updateBlog_ok_blogId (st : MemStorage) (i : Int) (p : BlogPatch)
    (r : Blog × MemStorage) (h : updateBlog st i p = .ok r) :
    r.2.blogId = st.blogId := by
  unfold updateBlog at h
  cases hj : jget st.blogs i with
  | none => rw [hj] at h; exact absurd h (by simp)
  | some b =>
    rw [hj] at h
    simp only [Except.ok.injEq] at h
    rw [← h]

theorem assignedIds_eq (ops : List BlogOp) :
    ∀ st, assignedIds st ops =
      (List.range (numCreates ops)).map (fun k : Nat => st.blogId + (k : Int)) := by
  induction ops with
  | nil => intro st; simp [assignedIds, numCreates]
  | cons op rest ih =>
    intro st
    cases op with
    | create b =>
      simp only [assignedIds, numCreates]
      rw [ih]
      have hcounter : (createBlog st b).2.blogId = st.blogId + 1 := rfl
      have hid : (createBlog st b).1.id = st.blogId := rfl
      rw [hcounter, hid, List.range_succ_eq_map, List.map_cons, List.map_map]
      refine congrArg₂ _ (by simp) ?_
      refine List.map_congr_left ?_
      intro a _
      simp [Function.comp]
      ring
    | del i =>
      simp only [assignedIds, applyBlogOp]
      rw [ih]
      rfl
    | update i p =>
      simp only [assignedIds, applyBlogOp]
      cases h : updateBlog st i p with
      | ok r =>
        rw [ih]
        rw [updateBlog_ok_blogId st i p r h]
        rfl
      | error e =>
        rw [ih]
        rfl

theorem updateUser_ok_userId (st : MemStorage) (i : Int) (p : UserPatch)
    (r : User × MemStorage) (h : updateUser st i p = .ok r) :
    r.2.userId = st.userId := by
  unfold updateUser at h
  cases hj : jget st.users i with
  | none => rw [hj] at h; exact absurd h (by simp)
  | some u =>
    rw [hj] at h
    simp only [Except.ok.injEq] at h
    rw [← h]

theorem updateComment_ok_commentId (st : MemStorage) (i : Int) (p : CommentPatch)
    (r : Comment × MemStorage) (h : updateComment st i p = .ok r) :
    r.2.commentId = st.commentId := by
  unfold updateComment at h
  cases hj : jget st.comments i with
  | none => rw [hj] at h; exact absurd h (by simp)
  | some c =>
    rw [hj] at h
    simp only [Except.ok.injEq] at h
    rw [← h]

theorem assignedUserIds_eq (ops : List UserOp) :
    ∀ st, assignedUserIds st ops =
      (List.range (numUserCreates ops)).map (fun k : Nat => st.userId + (k : Int)) := by
  induction ops with
  | nil => intro st; simp [assignedUserIds, numUserCreates]
  | cons op rest ih =>
    intro st
    cases op with
    | create u =>
      simp only [assignedUserIds, numUserCreates]
      rw [ih]
      have hcounter : (createUser st u).2.userId = st.userId + 1 := rfl
      have hid : (createUser st u).1.id = st.userId := rfl
      rw [hcounter, hid, List.range_succ_eq_map, List.map_cons, List.map_map]
      refine congrArg₂ _ (by simp) ?_
      refine List.map_congr_left ?_
      intro a _
      simp [Function.comp]
      ring
    | update i p =>
      simp only [assignedUserIds, applyUserOp]
      cases h : updateUser st i p with
      | ok r =>
        rw [ih]
        rw [updateUser_ok_userId st i p r h]
        rfl
      | error e =>
        rw [ih]
        rfl

theorem assignedLikeIds_eq (ops : List LikeOp) :
    ∀ st, assignedLikeIds st ops =
      (List.range (numLikeCreates ops)).map (fun k : Nat => st.likeId + (k : Int)) := by
  induction ops with
  | nil => intro st; simp [assignedLikeIds, numLikeCreates]
  | cons op rest ih =>
    intro st
    cases op with
    | create l =>
      simp only [assignedLikeIds, numLikeCreates]
      rw [ih]
      have hcounter : (createLike st l).2.likeId = st.likeId + 1 := rfl
      have hid : (createLike st l).1.id = st.likeId := rfl
      rw [hcounter, hid, List.range_succ_eq_map, List.map_cons, List.map_map]
      refine congrArg₂ _ (by simp) ?_
      refine List.map_congr_left ?_
      intro a _
      simp [Function.comp]
      ring
    | del i =>
      simp only [assignedLikeIds, applyLikeOp]
      rw [ih]
      rfl

theorem assignedFollowerIds_eq (ops : List FollowerOp) :
    ∀ st, assignedFollowerIds st ops =
      (List.range (numFollowerCreates ops)).map
        (fun k : Nat => st.followerId + (k : Int)) := by
  induction ops with
  | nil => intro st; simp [assignedFollowerIds, numFollowerCreates]
  | cons op rest ih =>
    intro st
    cases op with
    | create f =>
      simp only [assignedFollowerIds, numFollowerCreates]
      rw [ih]
      have hcounter : (createFollower st f).2.followerId = st.followerId + 1 := rfl
      have hid : (createFollower st f).1.id = st.followerId := rfl
      rw [hcounter, hid, List.range_succ_eq_map, List.map_cons, List.map_map]
      refine congrArg₂ _ (by simp) ?_
      refine List.map_congr_left ?_
      intro a _
      simp [Function.comp]
      ring
    | del i =>
      simp only [assignedFollowerIds, applyFollowerOp]
      rw [ih]
      rfl

theorem assignedCommentIds_eq (ops : List CommentOp) :
    ∀ st, assignedCommentIds st ops =
      (List.range (numCommentCreates ops)).map
        (fun k : Nat => st.commentId + (k : Int)) := by
  induction ops with
  | nil => intro st; simp [assignedCommentIds, numCommentCreates]
  | cons op rest ih =>
    intro st
    cases op with
    | create c =>
      simp only [assignedCommentIds, numCommentCreates]
      rw [ih]
      have hcounter : (createComment st c).2.commentId = st.commentId + 1 := rfl
      have hid : (createComment st c).1.id = st.commentId := rfl
      rw [hcounter, hid, List.range_succ_eq_map, List.map_cons, List.map_map]
      refine congrArg₂ _ (by simp) ?_
      refine List.map_congr_left ?_
      intro a _
      simp [Function.comp]
      ring
    | del i =>
      simp only [assignedCommentIds, applyCommentOp]
      rw [ih]
      rfl
    | update i p =>
      simp only [assignedCommentIds, applyCommentOp]
      cases h : updateComment st i p with
      | ok r =>
        rw [ih]
        rw [updateComment_ok_commentId st i p r h]
        rfl
      | error e =>
        rw [ih]
        rfl

theorem range_one_add_pairwise_lt (n : Nat) :
    ((List.range n).map (fun k : Nat => 1 + (k : Int))).Pairwise (· < ·) :=
  List.Pairwise.map _ (fun a b hab => by omega) (List.pairwise_lt_range n)

theorem range_one_add_pos (n : Nat) :
    ∀ i ∈ (List.range n).map (fun k : Nat => 1 + (k : Int)), 1 ≤ i := by
  intro i hi
  obtain ⟨k, hk, rfl⟩ := List.mem_map.mp hi
  omega

theorem jget_of_keys_lt (m : JMap α) (c : Int) (h : ∀ p ∈ m, p.1 < c) :
    jget m c = none := by
  apply jget_eq_none_of_not_mem
  intro hmem
  obtain ⟨p, hp, hpc⟩ := List.mem_map.mp hmem
  exact absurd (hpc ▸ h p hp) (lt_irrefl c)

/-- Fixture: Alice's registration data. -/
def insAlice : InsertUser :=
  { uid := "u1", username := "alice", email := "a@x", displayName := "Alice"
    bio := none, photoURL := none, location := none, website := none }

/-- Fixture: Bob's registration data (distinct username, email, uid). -/
def insBob : InsertUser :=
  { uid := "u2", username := "bob", email := "b@x", displayName := "Bob"
    bio := none, photoURL := none, location := none, website := none }

/-- Fixture: a registration with a fresh username but Alice's email. -/
def insBobDupEmail : InsertUser :=
  { uid := "u2", username := "bob", email := "a@x", displayName := "Bob"
    bio := none, photoURL := none, location := none, website := none }

/-- Fixture: a registration reusing Alice's username. -/
def insAliceDup : InsertUser :=
  { uid := "u3", username := "alice", email := "c@x", displayName := "Alice2"
    bio := none, photoURL := none, location := none, website := none }

/-- Fixture: the store after creating Alice. -/
def stUsers1 : MemStorage := (createUser MemStorage.init insAlice).2

/-- Fixture: blog post A, timestamp 100. -/
def insBlogA : InsertBlog :=
  { userId := 1, title := "A", content := "body", coverImage := none
    category := "Tech", tags := none, publishedAt := 100 }

/-- Fixture: blog post B, same timestamp 100. -/
def insBlogB : InsertBlog :=
  { userId := 1, title := "B", content := "body", coverImage := none
    category := "Tech", tags := none, publishedAt := 100 }

/-- Fixture: the store after creating blog A (id 1) then blog B (id 2),
both with publication timestamp 100. -/
def stBlogs2 : MemStorage :=
  (createBlog (createBlog MemStorage.init insBlogA).2 insBlogB).2

/-- Fixture: a like of blog 1 by user 1. -/
def insLike11 : InsertLike := { userId := 1, blogId := 1 }

/-- Fixture: the store after creating the (1, 1) like (id 1). -/
def stLikes1 : MemStorage := (createLike MemStorage.init insLike11).2

/-- Fixture: a follow of user 2 by user 1. -/
def insFollow12 : InsertFollower := { followerId := 1, followingId := 2 }

/-- Fixture: the store after creating the (1, 2) follow (id 1). -/
def stFollows1 : MemStorage := (createFollower MemStorage.init insFollow12).2

/-- Claim C6: for every entity type and input record without an id,
insert followed by getById on the returned identity yields the input
record with the assigned identity added, and the insert's only effect is
to append that one record to its type's store: every other key of the
same map, every other map, and every other counter are untouched. The
hypothesis (every stored key is below the id counter) holds in every
reachable state, since ids are only handed out by the counters. -/
theorem C6_insert_then_get :
    (∀ st x, (∀ p ∈ st.users, p.1 < st.userId) →
      getUser (createUser st x).2 (createUser st x).1.id = some (createUser st x).1 ∧
      (createUser st x).1 = User.mk st.userId x.uid x.username x.email
        x.displayName x.bio x.photoURL x.location x.website ∧
      (createUser st x).2.users = st.users ++ [(st.userId, (createUser st x).1)] ∧
      (∀ k, k ≠ (createUser st x).1.id → getUser (createUser st x).2 k = getUser st k) ∧
      (createUser st x).2.blogs = st.blogs ∧ (createUser st x).2.likes = st.likes ∧
      (createUser st x).2.followers = st.followers ∧
      (createUser st x).2.comments = st.comments ∧
      (createUser st x).2.blogId = st.blogId ∧ (createUser st x).2.likeId = st.likeId ∧
      (createUser st x).2.followerId = st.followerId ∧
      (createUser st x).2.commentId = st.commentId) ∧
    (∀ st x, (∀ p ∈ st.blogs, p.1 < st.blogId) →
      getBlog (createBlog st x).2 (createBlog st x).1.id = some (createBlog st x).1 ∧
      (createBlog st x).1 = Blog.mk st.blogId x.userId x.title x.content
        x.coverImage x.category x.tags x.publishedAt ∧
      (createBlog st x).2.blogs = st.blogs ++ [(st.blogId, (createBlog st x).1)] ∧
      (∀ k, k ≠ (createBlog st x).1.id → getBlog (createBlog st x).2 k = getBlog st k) ∧
      (createBlog st x).2.users = st.users ∧ (createBlog st x).2.userId = st.userId) ∧
    (∀ st x, (∀ p ∈ st.likes, p.1 < st.likeId) →
      jget (createLike st x).2.likes (createLike st x).1.id = some (createLike st x).1 ∧
      (createLike st x).1 = Like.mk st.likeId x.userId x.blogId ∧
      (createLike st x).2.likes = st.likes ++ [(st.likeId, (createLike st x).1)]) ∧
    (∀ st x, (∀ p ∈ st.followers, p.1 < st.followerId) →
      jget (createFollower st x).2.followers (createFollower st x).1.id =
        some (createFollower st x).1 ∧
      (createFollower st x).1 = Follower.mk st.followerId x.followerId x.followingId ∧
      (createFollower st x).2.followers =
        st.followers ++ [(st.followerId, (createFollower st x).1)]) ∧
    (∀ st x, (∀ p ∈ st.comments, p.1 < st.commentId) →
      getComment (createComment st x).2 (createComment st x).1.id =
        some (createComment st x).1 ∧
      (createComment st x).1 = Comment.mk st.commentId x.userId x.blogId
        x.content x.createdAt x.parentId ∧
      (createComment st x).2.comments =
        st.comments ++ [(st.commentId, (createComment st x).1)]) := by
  refine ⟨?_, ?_, ?_, ?_, ?_⟩
  · intro st x h
    refine ⟨jget_jset_self _ _ _, rfl,
      jset_eq_append _ _ _ (jget_of_keys_lt _ _ h), ?_, rfl, rfl, rfl, rfl, rfl, rfl, rfl, rfl⟩
    intro k hk
    exact jget_jset_ne _ _ _ _ hk
  · intro st x h
    refine ⟨jget_jset_self _ _ _, rfl,
      jset_eq_append _ _ _ (jget_of_keys_lt _ _ h), ?_, rfl, rfl⟩
    intro k hk
    exact jget_jset_ne _ _ _ _ hk
  · intro st x h
    exact ⟨jget_jset_self _ _ _, rfl, jset_eq_append _ _ _ (jget_of_keys_lt _ _ h)⟩
  · intro st x h
    exact ⟨jget_jset_self _ _ _, rfl, jset_eq_append _ _ _ (jget_of_keys_lt _ _ h)⟩
  · intro st x h
    exact ⟨jget_jset_self _ _ _, rfl, jset_eq_append _ _ _ (jget_of_keys_lt _ _ h)⟩

/-- Witness for C6 at a concrete input: creating Bob in the one-user
store and reading him back by the returned id. -/
theorem C6_insert_then_get_witness :
    getUser (createUser stUsers1 insBob).2 (createUser stUsers1 insBob).1.id =
      some (createUser stUsers1 insBob).1 :=
  (C6_insert_then_get.1 stUsers1 insBob (by decide)).1

/-- Claim C10: the store-layer create operations perform no uniqueness or
idempotency check whatsoever — `createUser`, `createLike` and
`createFollower` succeed unconditionally (for any state, duplicates
included) and insert one more record under a fresh identity. The witness
exercises exactly the duplicate cases: an existing username, an existing
(user, post) pair and an existing (follower, followee) pair. -/
theorem C10_store_creates_unchecked :
    (∀ st x, (∀ p ∈ st.users, p.1 < st.userId) →
      (createUser st x).1.id = st.userId ∧
      (createUser st x).1.username = x.username ∧
      jsize (createUser st x).2.users = jsize st.users + 1) ∧
    (∀ st x, (∀ p ∈ st.likes, p.1 < st.likeId) →
      (createLike st x).1.id = st.likeId ∧
      (createLike st x).1.userId = x.userId ∧ (createLike st x).1.blogId = x.blogId ∧
      jsize (createLike st x).2.likes = jsize st.likes + 1) ∧
    (∀ st x, (∀ p ∈ st.followers, p.1 < st.followerId) →
      (createFollower st x).1.id = st.followerId ∧
      jsize (createFollower st x).2.followers = jsize st.followers + 1) := by
  refine ⟨?_, ?_, ?_⟩
  · intro st x h
    refine ⟨rfl, rfl, ?_⟩
    show (jset st.users st.userId _).length = st.users.length + 1
    rw [jset_eq_append _ _ _ (jget_of_keys_lt _ _ h)]
    simp
  · intro st x h
    refine ⟨rfl, rfl, rfl, ?_⟩
    show (jset st.likes st.likeId _).length = st.likes.length + 1
    rw [jset_eq_append _ _ _ (jget_of_keys_lt _ _ h)]
    simp
  · intro st x h
    refine ⟨rfl, ?_⟩
    show (jset st.followers st.followerId _).length = st.followers.length + 1
    rw [jset_eq_append _ _ _ (jget_of_keys_lt _ _ h)]
    simp

/-- Witness for C10 at duplicate inputs: re-creating Alice's username
directly at the store grows the user map to two records; re-creating the
existing (1,1) like and the existing (1,2) follow likewise insert. -/
theorem C10_store_creates_unchecked_witness :
    (getUserByUsername stUsers1 insAliceDup.username).isSome ∧
    jsize (createUser stUsers1 insAliceDup).2.users = 2 ∧
    (getLike stLikes1 insLike11.userId insLike11.blogId).isSome ∧
    jsize (createLike stLikes1 insLike11).2.likes = 2 ∧
    (getFollower stFollows1 insFollow12.followerId insFollow12.followingId).isSome ∧
    jsize (createFollower stFollows1 insFollow12).2.followers = 2 := by
  refine ⟨by decide, ?_, by decide, ?_, by decide, ?_⟩
  · have h := ((C10_store_creates_unchecked.1) stUsers1 insAliceDup (by decide)).2.2
    simpa using h
  · have h := ((C10_store_creates_unchecked.2.1) stLikes1 insLike11 (by decide)).2.2.2
    simpa using h
  · have h := ((C10_store_creates_unchecked.2.2) stFollows1 insFollow12 (by decide)).2
    simpa using h

/-- Claim C7: each delete operation returns exactly the boolean "a record
with that id existed" (and is total — it never fails); the record is
removed (lookups of the deleted id then yield nothing, other ids are
untouched), and a second delete of the same id returns false. The
removal facts assume the map keys are unique, which is the JS `Map`
invariant and holds in every reachable state. -/
theorem C7_delete_semantics :
    (∀ st id, (deleteBlog st id).1 = (getBlog st id).isSome ∧
      ((jkeys st.blogs).Nodup → getBlog (deleteBlog st id).2 id = none) ∧
      (∀ k, k ≠ id → getBlog (deleteBlog st id).2 k = getBlog st k) ∧
      ((jkeys st.blogs).Nodup → (deleteBlog (deleteBlog st id).2 id).1 = false)) ∧
    (∀ st id, (deleteLike st id).1 = (jget st.likes id).isSome ∧
      ((jkeys st.likes).Nodup → jget (deleteLike st id).2.likes id = none) ∧
      ((jkeys st.likes).Nodup → (deleteLike (deleteLike st id).2 id).1 = false)) ∧
    (∀ st id, (deleteFollower st id).1 = (jget st.followers id).isSome ∧
      ((jkeys st.followers).Nodup → jget (deleteFollower st id).2.followers id = none) ∧
      ((jkeys st.followers).Nodup → (deleteFollower (deleteFollower st id).2 id).1 = false)) ∧
    (∀ st id, (deleteComment st id).1 = (getComment st id).isSome ∧
      ((jkeys st.comments).Nodup → getComment (deleteComment st id).2 id = none) ∧
      ((jkeys st.comments).Nodup → (deleteComment (deleteComment st id).2 id).1 = false)) := by
  refine ⟨?_, ?_, ?_, ?_⟩
  · intro st id
    refine ⟨jdelete_fst _ _, fun h => jget_jdelete_self _ _ h, ?_, fun h => ?_⟩
    · intro k hk
      exact jget_jdelete_ne _ _ _ hk
    · show (jdelete (jdelete st.blogs id).2 id).1 = false
      rw [jdelete_fst, jget_jdelete_self _ _ h]
      rfl
  · intro st id
    refine ⟨jdelete_fst _ _, fun h => jget_jdelete_self _ _ h, fun h => ?_⟩
    show (jdelete (jdelete st.likes id).2 id).1 = false
    rw [jdelete_fst, jget_jdelete_self _ _ h]
    rfl
  · intro st id
    refine ⟨jdelete_fst _ _, fun h => jget_jdelete_self _ _ h, fun h => ?_⟩
    show (jdelete (jdelete st.followers id).2 id).1 = false
    rw [jdelete_fst, jget_jdelete_self _ _ h]
    rfl
  · intro st id
    refine ⟨jdelete_fst _ _, fun h => jget_jdelete_self _ _ h, fun h => ?_⟩
    show (jdelete (jdelete st.comments id).2 id).1 = false
    rw [jdelete_fst, jget_jdelete_self _ _ h]
    rfl

/-- Witness for C7 at a concrete input: deleting blog 1 from the
two-blog store returns true, a repeat delete returns false. -/
theorem C7_delete_semantics_witness :
    (deleteBlog stBlogs2 1).1 = (getBlog stBlogs2 1).isSome ∧
    (getBlog stBlogs2 1).isSome = true ∧
    (deleteBlog (deleteBlog stBlogs2 1).2 1).1 = false := by
  refine ⟨(C7_delete_semantics.1 stBlogs2 1).1, by decide,
    (C7_delete_semantics.1 stBlogs2 1).2.2.2 (by decide)⟩

/-- Fixture: a patch that only sets the bio. -/
def patchBio : UserPatch := { bio := some (some "hi") }

/-- Fixture: a patch whose only field is a new id, 99. -/
def patchId99 : UserPatch := { id := some 99 }

/-- Fixture: Alice's stored record in `stUsers1`. -/
def aliceUser : User := User.mk 1 "u1" "alice" "a@x" "Alice" none none none none

/-- Claim C4: update on an absent id fails with the not-found error and
mutates nothing (the throw precedes any store write); update on a
present id merges the patch over the record by shallow field
replacement — each field of the result is the patch's value when
present and the old value when absent, so the empty patch is the
identity — stores the merged record under the same key, leaves other
keys untouched, and returns the merged record. Holds for the three
entity types with an update operation: User, Blog (Post), Comment. -/
theorem C4_update_semantics :
    (∀ st id p, getUser st id = none → updateUser st id p = .error "User not found") ∧
    (∀ st id p u, getUser st id = some u →
      ∃ st', updateUser st id p = .ok (mergeUser u p, st') ∧
        getUser st' id = some (mergeUser u p) ∧
        (∀ k, k ≠ id → getUser st' k = getUser st k)) ∧
    (∀ u p, mergeUser u p = User.mk (p.id.getD u.id) (p.uid.getD u.uid)
      (p.username.getD u.username) (p.email.getD u.email)
      (p.displayName.getD u.displayName) (p.bio.getD u.bio)
      (p.photoURL.getD u.photoURL) (p.location.getD u.location)
      (p.website.getD u.website)) ∧
    (∀ u, mergeUser u {} = u) ∧
    (∀ st id p, getBlog st id = none → updateBlog st id p = .error "Blog not found") ∧
    (∀ st id p b, getBlog st id = some b →
      ∃ st', updateBlog st id p = .ok (mergeBlog b p, st') ∧
        getBlog st' id = some (mergeBlog b p) ∧
        (∀ k, k ≠ id → getBlog st' k = getBlog st k)) ∧
    (∀ b p, mergeBlog b p = Blog.mk (p.id.getD b.id) (p.userId.getD b.userId)
      (p.title.getD b.title) (p.content.getD b.content)
      (p.coverImage.getD b.coverImage) (p.category.getD b.category)
      (p.tags.getD b.tags) (p.publishedAt.getD b.publishedAt)) ∧
    (∀ b, mergeBlog b {} = b) ∧
    (∀ st id p, getComment st id = none → updateComment st id p = .error "Comment not found") ∧
    (∀ st id p c, getComment st id = some c →
      ∃ st', updateComment st id p = .ok (mergeComment c p, st') ∧
        getComment st' id = some (mergeComment c p) ∧
        (∀ k, k ≠ id → getComment st' k = getComment st k)) ∧
    (∀ c p, mergeComment c p = Comment.mk (p.id.getD c.id) (p.userId.getD c.userId)
      (p.blogId.getD c.blogId) (p.content.getD c.content)
      (p.createdAt.getD c.createdAt) (p.parentId.getD c.parentId)) ∧
    (∀ c, mergeComment c {} = c) := by
  refine ⟨?_, ?_, fun u p => rfl, fun u => rfl, ?_, ?_, fun b p => rfl, fun b => rfl,
    ?_, ?_, fun c p => rfl, fun c => rfl⟩
  · intro st id p h
    unfold updateUser
    rw [show jget st.users id = none from h]
  · intro st id p u h
    refine ⟨{ st with users := jset st.users id (mergeUser u p) }, ?_,
      jget_jset_self _ _ _, fun k hk => jget_jset_ne _ _ _ _ hk⟩
    unfold updateUser
    rw [show jget st.users id = some u from h]
  · intro st id p h
    unfold updateBlog
    rw [show jget st.blogs id = none from h]
  · intro st id p b h
    refine ⟨{ st with blogs := jset st.blogs id (mergeBlog b p) }, ?_,
      jget_jset_self _ _ _, fun k hk => jget_jset_ne _ _ _ _ hk⟩
    unfold updateBlog
    rw [show jget st.blogs id = some b from h]
  · intro st id p h
    unfold updateComment
    rw [show jget st.comments id = none from h]
  · intro st id p c h
    refine ⟨{ st with comments := jset st.comments id (mergeComment c p) }, ?_,
      jget_jset_self _ _ _, fun k hk => jget_jset_ne _ _ _ _ hk⟩
    unfold updateComment
    rw [show jget st.comments id = some c from h]

/-- Witness for C4 at concrete inputs: updating a missing user id throws
the not-found error, and updating Alice's bio keeps every other field. -/
theorem C4_update_semantics_witness :
    updateUser stUsers1 99 patchBio = .error "User not found" ∧
    (∃ st', updateUser stUsers1 1 patchBio = .ok (mergeUser aliceUser patchBio, st') ∧
      getUser st' 1 = some (mergeUser aliceUser patchBio) ∧
      (∀ k, k ≠ 1 → getUser st' k = getUser stUsers1 k)) ∧
    mergeUser aliceUser patchBio =
      User.mk 1 "u1" "alice" "a@x" "Alice" (some "hi") none none none :=
  ⟨C4_update_semantics.1 stUsers1 99 patchBio (by decide),
    C4_update_semantics.2.1 stUsers1 1 patchBio aliceUser (by decide),
    by decide⟩

/-- Claim C9 (implicit behaviour): nothing protects the identity field
in an update — a patch whose `id` field is present rewrites the stored
record's id while the record stays filed under the old key, so the
key-equals-record-id invariant breaks whenever the patched id differs
from the key. Holds for both cited update operations (User, Comment). -/
theorem C9_update_overwrites_id :
    (∀ st k k' p u, getUser st k = some u → p.id = some k' →
      ∃ st', updateUser st k p = .ok (mergeUser u p, st') ∧
        (mergeUser u p).id = k' ∧
        getUser st' k = some (mergeUser u p) ∧
        (k' ≠ k → (getUser st' k).map User.id ≠ some k)) ∧
    (∀ st k k' p c, getComment st k = some c → p.id = some k' →
      ∃ st', updateComment st k p = .ok (mergeComment c p, st') ∧
        (mergeComment c p).id = k' ∧
        getComment st' k = some (mergeComment c p) ∧
        (k' ≠ k → (getComment st' k).map Comment.id ≠ some k)) := by
  constructor
  · intro st k k' p u h hid
    refine ⟨{ st with users := jset st.users k (mergeUser u p) }, ?_, ?_,
      jget_jset_self _ _ _, ?_⟩
    · unfold updateUser
      rw [show jget st.users k = some u from h]
    · simp [mergeUser, hid]
    · intro hne
      rw [show getUser { st with users := jset st.users k (mergeUser u p) } k =
          some (mergeUser u p) from jget_jset_self _ _ _]
      simp [mergeUser, hid]
      exact hne
  · intro st k k' p c h hid
    refine ⟨{ st with comments := jset st.comments k (mergeComment c p) }, ?_, ?_,
      jget_jset_self _ _ _, ?_⟩
    · unfold updateComment
      rw [show jget st.comments k = some c from h]
    · simp [mergeComment, hid]
    · intro hne
      rw [show getComment { st with comments := jset st.comments k (mergeComment c p) } k =
          some (mergeComment c p) from jget_jset_self _ _ _]
      simp [mergeComment, hid]
      exact hne

/-- Witness for C9 at a concrete input: patching user 1 with id 99
leaves a record with id 99 stored under key 1. -/
theorem C9_update_overwrites_id_witness :
    ∃ st', updateUser stUsers1 1 patchId99 = .ok (mergeUser aliceUser patchId99, st') ∧
      (mergeUser aliceUser patchId99).id = 99 ∧
      getUser st' 1 = some (mergeUser aliceUser patchId99) ∧
      ((99 : Int) ≠ 1 → (getUser st' 1).map User.id ≠ some 1) :=
  C9_update_overwrites_id.1 stUsers1 1 99 patchId99 aliceUser (by decide) rfl

/-- Counterexample to claim C1 as stated: in the store holding Alice
(email "a@x", uid "u1"), a creation request with a fresh username but
Alice's exact email is NOT met with Conflict — the handler answers 201
and the user store grows to two records, two of which share the email.
(The handler looks up only the username; email and uid are never
checked.) -/
theorem C1_counterexample_email_not_checked :
    (getUserByEmail stUsers1 insBobDupEmail.email).isSome = true ∧
    (postUsers stUsers1 insBobDupEmail).1.status = 201 ∧
    jsize (postUsers stUsers1 insBobDupEmail).2.users = 2 ∧
    getUserByEmail (postUsers stUsers1 insBobDupEmail).2 "a@x" ≠ none := by
  refine ⟨by decide, by decide, by decide, by decide⟩

/-- Claim C1 amended: the only secondary-key lookup `POST /api/users`
performs before insert is on the username. A creation request whose
username equals an existing user's fails with Conflict (409), inserts
nothing and leaves the store exactly as it was (same state, hence same
size and records); a request with a fresh username is created (201)
regardless of duplicate email or uid. -/
theorem C1_username_conflict_only :
    (∀ st req, (getUserByUsername st req.username).isSome →
      postUsers st req = (⟨409, none⟩, st) ∧
      (postUsers st req).2.users = st.users ∧
      jsize (postUsers st req).2.users = jsize st.users) ∧
    (∀ st req, getUserByUsername st req.username = none →
      (postUsers st req).1 = ⟨201, some (createUser st req).1⟩ ∧
      (postUsers st req).2 = (createUser st req).2) := by
  constructor
  · intro st req h
    unfold postUsers
    cases hm : getUserByUsername st req.username with
    | none => rw [hm] at h; exact absurd h (by simp)
    | some u => exact ⟨rfl, rfl, rfl⟩
  · intro st req h
    unfold postUsers
    rw [h]
    exact ⟨rfl, rfl⟩

/-- Witness for amended C1 at a concrete input: re-registering the
username "alice" is refused with 409, the store untouched. -/
theorem C1_username_conflict_only_witness :
    postUsers stUsers1 insAliceDup = (⟨409, none⟩, stUsers1) :=
  (C1_username_conflict_only.1 stUsers1 insAliceDup (by decide)).1

/-- Claim C2: the like and follow handlers run the compound existence
check before insert: when a Like with the same (userId, blogId) pair —
or a Follow with the same (followerId, followingId) pair — exists, the
request fails with 409 Conflict and inserts nothing (the state is
returned unchanged). After deleting the one existing Like of the pair,
re-creating it succeeds with 201. The re-creation part assumes the
(1-per-pair) integrity invariant the API maintains: the matching entry
is unique and filed under its own id, with unique map keys. -/
theorem C2_like_follow_idempotency :
    (∀ st ld, (getLike st ld.userId ld.blogId).isSome →
      postLikes st ld = (⟨409, none⟩, st)) ∧
    (∀ st fd, (getFollower st fd.followerId fd.followingId).isSome →
      postFollowers st fd = (⟨409, none⟩, st)) ∧
    (∀ st ld l, getLike st ld.userId ld.blogId = some l →
      (∀ e ∈ st.likes, (e.2.userId = ld.userId ∧ e.2.blogId = ld.blogId) → e = (l.id, l)) →
      (jkeys st.likes).Nodup →
      (postLikes (deleteLike st l.id).2 ld).1.status = 201 ∧
      (getLike (postLikes (deleteLike st l.id).2 ld).2 ld.userId ld.blogId).isSome) := by
  refine ⟨?_, ?_, ?_⟩
  · intro st ld h
    unfold postLikes
    cases hm : getLike st ld.userId ld.blogId with
    | none => rw [hm] at h; exact absurd h (by simp)
    | some u => rfl
  · intro st fd h
    unfold postFollowers
    cases hm : getFollower st fd.followerId fd.followingId with
    | none => rw [hm] at h; exact absurd h (by simp)
    | some u => rfl
  · intro st ld l hfound huniq hnodup
    have hgone : getLike (deleteLike st l.id).2 ld.userId ld.blogId = none := by
      apply List.find?_eq_none.mpr
      intro x hx hpred
      obtain ⟨e, he, hex⟩ := List.mem_map.mp hx
      have he' : e ∈ st.likes := (jdelete_snd_sublist st.likes l.id).subset he
      have hmatch : e.2.userId = ld.userId ∧ e.2.blogId = ld.blogId := by
        rw [← hex] at hpred
        simpa using hpred
      have heq := huniq e he' hmatch
      have hkey : e.1 ∈ jkeys (jdelete st.likes l.id).2 :=
        List.mem_map.mpr ⟨e, he, rfl⟩
      rw [heq] at hkey
      exact jkeys_jdelete_not_mem st.likes l.id hnodup hkey
    constructor
    · show (postLikes (deleteLike st l.id).2 ld).1.status = 201
      unfold postLikes
      rw [hgone]
    · unfold postLikes
      rw [hgone]
      show (getLike (createLike (deleteLike st l.id).2 ld).2 ld.userId ld.blogId).isSome
      have hmem : ∀ (m : JMap Like) (k : Int) (v : Like), v ∈ jvalues (jset m k v) := by
        intro m k v
        induction m with
        | nil => simp [jset, jvalues]
        | cons hd tl ih =>
          obtain ⟨k0, v0⟩ := hd
          by_cases h0 : k0 = k
          · simp [jset, h0, jvalues]
          · simp only [jset, if_neg h0]
            simp [jvalues] at ih ⊢
            exact .inr ih
      unfold getLike
      apply List.find?_isSome.mpr
      refine ⟨(createLike (deleteLike st l.id).2 ld).1, hmem _ _ _, ?_⟩
      simp [createLike]

/-- Witness for C2 at concrete inputs: the second like of (1, 1) is
refused with 409 leaving the store unchanged; the second follow of
(1, 2) likewise; deleting the existing like then re-creating it answers
201 and the pair exists again. -/
theorem C2_like_follow_idempotency_witness :
    postLikes stLikes1 insLike11 = (⟨409, none⟩, stLikes1) ∧
    postFollowers stFollows1 insFollow12 = (⟨409, none⟩, stFollows1) ∧
    (postLikes (deleteLike stLikes1 1).2 insLike11).1.status = 201 := by
  refine ⟨C2_like_follow_idempotency.1 stLikes1 insLike11 (by decide),
    C2_like_follow_idempotency.2.1 stFollows1 insFollow12 (by decide), ?_⟩
  have h := (C2_like_follow_idempotency.2.2 stLikes1 insLike11 (Like.mk 1 1 1)
    (by decide) (by decide) (by decide)).1
  simpa using h

/-- The paginated listing as the specification describes it (same slice,
but over the spec's claimed order with ties by identity descending), for
comparison with `getBlogs`. -/
def getBlogsSpecOrder (st : MemStorage) (limit : JNum := .int 10)
    (offset : JNum := .int 0) : List Blog :=
  jsSlice (sortBlogsSpecOrder (jvalues st.blogs)) offset (offset.add limit)

/-- Counterexample to claim C3 as stated: blogs 1 and 2 share the
publication timestamp 100; the code returns them in insertion order
(identity ASCENDING, the stable-sort tie behaviour), while the claimed
tie-break by identity descending would return them reversed. -/
theorem C3_counterexample_tie_ascending :
    (getBlog stBlogs2 1).map Blog.publishedAt = (getBlog stBlogs2 2).map Blog.publishedAt ∧
    getBlogs stBlogs2 = [Blog.mk 1 1 "A" "body" none "Tech" none 100,
      Blog.mk 2 1 "B" "body" none "Tech" none 100] ∧
    getBlogsSpecOrder stBlogs2 = [Blog.mk 2 1 "B" "body" none "Tech" none 100,
      Blog.mk 1 1 "A" "body" none "Tech" none 100] ∧
    getBlogs stBlogs2 ≠ getBlogsSpecOrder stBlogs2 := by
  refine ⟨by decide, by decide, by decide, by decide⟩

/-- Claim C3 amended: for validated non-negative limit and offset,
`getBlogs` returns the contiguous slice [offset, offset+limit) of the
blogs sorted by publication timestamp descending with ties kept in the
map's insertion order (the stable-sort behaviour — for API-created
stores that is identity ASCENDING, not descending as the spec claims);
omitted parameters default to limit 10, offset 0; an offset at or past
the collection size yields the empty sequence, never an error. The sort
is characterised abstractly: it is sorted, a permutation of the values,
and stable (per-timestamp filtrations are preserved). -/
theorem C3_pagination_semantics :
    (∀ st (l o : Nat), getBlogs st (.int l) (.int o) =
      ((sortBlogsDesc (jvalues st.blogs)).drop o).take l) ∧
    (∀ st, getBlogs st = getBlogs st (.int 10) (.int 0)) ∧
    (∀ xs, (sortBlogsDesc xs).Pairwise (fun a b => b.publishedAt ≤ a.publishedAt)) ∧
    (∀ xs, (sortBlogsDesc xs).Perm xs) ∧
    (∀ xs t, (sortBlogsDesc xs).filter (fun b => b.publishedAt == t) =
      xs.filter (fun b => b.publishedAt == t)) ∧
    (∀ st (l o : Nat), (jvalues st.blogs).length ≤ o →
      getBlogs st (.int l) (.int o) = []) := by
  refine ⟨?_, fun st => rfl, sortBlogsDesc_sorted, sortBlogsDesc_perm,
    sortBlogsDesc_filter_stable, ?_⟩
  · intro st l o
    exact jsSlice_nonneg _ o l
  · intro st l o h
    show jsSlice (sortBlogsDesc (jvalues st.blogs)) (.int o) ((JNum.int o).add (.int l)) = []
    rw [jsSlice_nonneg _ o l]
    have hlen : (sortBlogsDesc (jvalues st.blogs)).length ≤ o :=
      le_trans (le_of_eq (sortBlogsDesc_perm (jvalues st.blogs)).length_eq) h
    rw [List.drop_of_length_le hlen, List.take_nil]

/-- Witness for amended C3 at a concrete input: in the two-blog store an
offset of 5 (≥ size 2) yields the empty list. -/
theorem C3_pagination_semantics_witness :
    getBlogs stBlogs2 (.int 10) (.int 5) = [] :=
  C3_pagination_semantics.2.2.2.2.2 stBlogs2 10 5 (by decide)

/-- Claim C5: within each entity type (User, Post, Like, Follow,
Comment), over every sequence of that type's store operations starting
from the initial state — creates plus whatever deletes and (possibly
failing) updates the source offers for the type — the identities handed
out by the creates are exactly 1, 2, 3, …: the k-th create receives id
k regardless of interleaved deletes (no counter is ever decremented or
reset), so assigned ids start at 1, strictly increase, and no later
insert ever receives a previously assigned id. -/
theorem C5_id_allocation (uops : List UserOp) (bops : List BlogOp)
    (lops : List LikeOp) (fops : List FollowerOp) (cops : List CommentOp) :
    (assignedUserIds MemStorage.init uops =
        (List.range (numUserCreates uops)).map (fun k : Nat => 1 + (k : Int)) ∧
      (assignedUserIds MemStorage.init uops).Pairwise (· < ·) ∧
      (∀ i ∈ assignedUserIds MemStorage.init uops, 1 ≤ i)) ∧
    (assignedIds MemStorage.init bops =
        (List.range (numCreates bops)).map (fun k : Nat => 1 + (k : Int)) ∧
      (assignedIds MemStorage.init bops).Pairwise (· < ·) ∧
      (∀ i ∈ assignedIds MemStorage.init bops, 1 ≤ i)) ∧
    (assignedLikeIds MemStorage.init lops =
        (List.range (numLikeCreates lops)).map (fun k : Nat => 1 + (k : Int)) ∧
      (assignedLikeIds MemStorage.init lops).Pairwise (· < ·) ∧
      (∀ i ∈ assignedLikeIds MemStorage.init lops, 1 ≤ i)) ∧
    (assignedFollowerIds MemStorage.init fops =
        (List.range (numFollowerCreates fops)).map (fun k : Nat => 1 + (k : Int)) ∧
      (assignedFollowerIds MemStorage.init fops).Pairwise (· < ·) ∧
      (∀ i ∈ assignedFollowerIds MemStorage.init fops, 1 ≤ i)) ∧
    (assignedCommentIds MemStorage.init cops =
        (List.range (numCommentCreates cops)).map (fun k : Nat => 1 + (k : Int)) ∧
      (assignedCommentIds MemStorage.init cops).Pairwise (· < ·) ∧
      (∀ i ∈ assignedCommentIds MemStorage.init cops, 1 ≤ i)) := by
  refine ⟨?_, ?_, ?_, ?_, ?_⟩
  · have h := assignedUserIds_eq uops MemStorage.init
    rw [show MemStorage.init.userId = 1 from rfl] at h
    refine ⟨h, ?_, ?_⟩
    · rw [h]; exact range_one_add_pairwise_lt _
    · rw [h]; exact range_one_add_pos _
  · have h := assignedIds_eq bops MemStorage.init
    rw [show MemStorage.init.blogId = 1 from rfl] at h
    refine ⟨h, ?_, ?_⟩
    · rw [h]; exact range_one_add_pairwise_lt _
    · rw [h]; exact range_one_add_pos _
  · have h := assignedLikeIds_eq lops MemStorage.init
    rw [show MemStorage.init.likeId = 1 from rfl] at h
    refine ⟨h, ?_, ?_⟩
    · rw [h]; exact range_one_add_pairwise_lt _
    · rw [h]; exact range_one_add_pos _
  · have h := assignedFollowerIds_eq fops MemStorage.init
    rw [show MemStorage.init.followerId = 1 from rfl] at h
    refine ⟨h, ?_, ?_⟩
    · rw [h]; exact range_one_add_pairwise_lt _
    · rw [h]; exact range_one_add_pos _
  · have h := assignedCommentIds_eq cops MemStorage.init
    rw [show MemStorage.init.commentId = 1 from rfl] at h
    refine ⟨h, ?_, ?_⟩
    · rw [h]; exact range_one_add_pairwise_lt _
    · rw [h]; exact range_one_add_pos _

/-- Witness for C5 at concrete sequences, one per entity type,
including the spec's scenario on each type that has a delete: create
(id 1), delete id 1, create again — the second create receives id 2,
never a reused id 1. -/
theorem C5_id_allocation_witness :
    assignedUserIds MemStorage.init
      [UserOp.create insAlice, UserOp.create insBob] = [1, 2] ∧
    assignedIds MemStorage.init
      [BlogOp.create insBlogA, BlogOp.del 1, BlogOp.create insBlogB] = [1, 2] ∧
    assignedLikeIds MemStorage.init
      [LikeOp.create insLike11, LikeOp.del 1, LikeOp.create insLike11] = [1, 2] ∧
    assignedFollowerIds MemStorage.init
      [FollowerOp.create insFollow12, FollowerOp.del 1,
        FollowerOp.create insFollow12] = [1, 2] ∧
    assignedCommentIds MemStorage.init
      [CommentOp.create (InsertComment.mk 1 1 "hi" 50 none), CommentOp.del 1,
        CommentOp.create (InsertComment.mk 1 1 "hi" 50 none)] = [1, 2] ∧
    (1 : Int) ≤ 2 := by
  have h := C5_id_allocation
    [UserOp.create insAlice, UserOp.create insBob]
    [BlogOp.create insBlogA, BlogOp.del 1, BlogOp.create insBlogB]
    [LikeOp.create insLike11, LikeOp.del 1, LikeOp.create insLike11]
    [FollowerOp.create insFollow12, FollowerOp.del 1, FollowerOp.create insFollow12]
    [CommentOp.create (InsertComment.mk 1 1 "hi" 50 none), CommentOp.del 1,
      CommentOp.create (InsertComment.mk 1 1 "hi" 50 none)]
  refine ⟨by rw [h.1.1]; decide, by rw [h.2.1.1]; decide, by rw [h.2.2.1.1]; decide,
    by rw [h.2.2.2.1.1]; decide, by rw [h.2.2.2.2.1]; decide,
    h.2.2.2.2.2.2 2 (by decide)⟩

/-- Counterexample to claim C8 as stated: a request with offset "-1"
(negative) is not rejected — the handler answers 200 with the Query
Engine's result for offset −1 (JS slice counts a negative start from the
end, so the LAST post of the sorted feed comes back); a request with a
non-numeric limit (`parseInt` gives NaN) likewise gets 200 with an empty
page instead of a rejection. -/
theorem C8_counterexample_no_validation :
    getBlogsHandler stBlogs2 none (some (.int (-1))) =
      ⟨200, some [Blog.mk 2 1 "B" "body" none "Tech" none 100]⟩ ∧
    getBlogsHandler stBlogs2 (some .nan) none = ⟨200, some []⟩ ∧
    (getBlogsHandler stBlogs2 none (some (.int (-1)))).status ≠ 400 := by
  refine ⟨by decide, by decide, by decide⟩

/-- Claim C8 amended: the `GET /api/blogs` handler performs no
validation of limit or offset at all — every request is answered 200
with the Query Engine invoked directly on the `parseInt` results
(defaults 10 and 0 only when a parameter is absent or empty); negative
values flow into JS slice semantics and a NaN limit produces an empty
page. -/
theorem C8_handler_passes_through :
    (∀ st lp op, getBlogsHandler st lp op =
      ⟨200, some (getBlogs st (lp.getD (.int 10)) (op.getD (.int 0)))⟩) ∧
    (∀ st lp op, (getBlogsHandler st lp op).status = 200) ∧
    (∀ st op, getBlogs st .nan op = []) := by
  refine ⟨fun st lp op => rfl, fun st lp op => rfl, fun st op => ?_⟩
  show jsSlice _ op (op.add .nan) = []
  cases op <;> simp [JNum.add, jsSlice, JNum.resolveIndex]
